import Mathlib

set_option linter.dupNamespace false

/-!
Shallow embedding of the reconciliation-service repository (Go) in Lean 4.

Amounts (`float64` in Go) are modelled as rationals `ℚ`; ids (`int64`) as `ℤ`;
dates are kept as the `String` values the Go code stores and are parsed the way
`time.Parse("2006-01-02", s)` does (errors discarded, zero time used), with a
day-number conversion so that date differences in days agree with Go's
`t1.Sub(t2).Hours()/24` for midnight timestamps.

Sources embedded:
  * `internal/matching/match_engine.go` (match engine, pure),
  * `internal/services/reconciliation_service.go` (batch persister); the
    store transaction is modelled explicitly (a pending-write buffer that is
    applied on commit and dropped on rollback) and repository calls may fail
    according to an explicit failure oracle; the per-match goroutines of the
    Go code are sequentialized in emission order (the claims under study are
    insensitive to the interleaving),
  * the data-ingestion service and its HTTP handler (ingest policy).
-/

namespace Reconciliation

/-! ## Go string containment (`strings.Contains`) -/

/-- Does `pat` occur at the start of `l`? (`strings.HasPrefix` on char lists). -/
def startsWithChars : List Char → List Char → Bool
  | [], _ => true
  | _ :: _, [] => false
  | p :: ps, c :: cs => p == c && startsWithChars ps cs

/-- Does `pat` occur anywhere inside `l`? (`strings.Contains` on char lists). -/
def containsChars : List Char → List Char → Bool
  | [], pat => pat.isEmpty
  | c :: cs, pat => startsWithChars pat (c :: cs) || containsChars cs pat

/-- Go `strings.Contains s pat`. -/
def strContains (s pat : String) : Bool :=
  containsChars s.data pat.data

/-! ## Go date parsing: `time.Parse("2006-01-02", s)`

Go's reference layout `"2006-01-02"` accepts exactly four year digits, a dash,
two month digits, a dash and two day digits, and rejects out-of-range month or
day values. On parse error the Go engine ignores the error and uses the zero
`time.Time` (January 1, year 1). -/

def digitVal (c : Char) : Option Nat :=
  if c.isDigit then some (c.toNat - 48) else none

/-- `true` in the Gregorian leap-year rule used by Go's `time` package. -/
def isLeapYear (y : Nat) : Bool :=
  y % 4 == 0 && (y % 100 != 0 || y % 400 == 0)

def daysInMonth (y m : Nat) : Nat :=
  if m = 2 then (if isLeapYear y then 29 else 28)
  else if m = 4 ∨ m = 6 ∨ m = 9 ∨ m = 11 then 30
  else 31

/-- Parse `YYYY-MM-DD` exactly as Go's `time.Parse("2006-01-02", ·)` accepts it. -/
def parseYMD (s : String) : Option (Nat × Nat × Nat) :=
  match s.data with
  | [y1, y2, y3, y4, h1, m1, m2, h2, d1, d2] =>
    if h1 = '-' ∧ h2 = '-' then
      match digitVal y1, digitVal y2, digitVal y3, digitVal y4,
            digitVal m1, digitVal m2, digitVal d1, digitVal d2 with
      | some a, some b, some c, some d, some e, some f, some g, some h =>
        let y := ((a * 10 + b) * 10 + c) * 10 + d
        let mo := e * 10 + f
        let da := g * 10 + h
        if 1 ≤ mo ∧ mo ≤ 12 ∧ 1 ≤ da ∧ da ≤ daysInMonth y mo then
          some (y, mo, da)
        else none
      | _, _, _, _, _, _, _, _ => none
    else none
  | _ => none

/-- Day number of a civil date (proleptic Gregorian), shifted by 400 years so
that the computation stays in `Nat`; only differences of day numbers matter. -/
def civilDays (y m d : Nat) : Nat :=
  let ys := y + 400
  let yAdj := if m ≤ 2 then ys - 1 else ys
  let era := yAdj / 400
  let yoe := yAdj % 400
  let mp := (m + 9) % 12
  let doy := (153 * mp + 2) / 5 + d - 1
  let doe := yoe * 365 + yoe / 4 - yoe / 100 + doy
  era * 146097 + doe

/-- Day number of the Go zero time (0001-01-01), the value `time.Parse` leaves
behind when the engine discards a parse error. -/
def goZeroDays : Nat := civilDays 1 1 1

/-- Day number a date string denotes to the engine: parse result, or the Go
zero time when parsing fails (the engine ignores the error). -/
def goDateDays (s : String) : Nat :=
  match parseYMD s with
  | some (y, m, d) => civilDays y m d
  | none => goZeroDays

/-- `|btDate.Sub(aeDate).Hours() / 24|` for two date strings (whole days). -/
def dateDiffDays (d1 d2 : String) : ℚ :=
  ((Int.natAbs ((goDateDays d1 : ℤ) - (goDateDays d2 : ℤ)) : ℕ) : ℚ)

/-! ## Data model (`internal/models/models.go`) -/

structure BankTransaction where
  id : ℤ
  transactionId : String
  accountNumber : String
  amount : ℚ
  transactionDate : String
  description : String
  referenceNumber : String
deriving DecidableEq, Repr

structure AccountingEntry where
  id : ℤ
  entryId : String
  accountCode : String
  amount : ℚ
  entryDate : String
  description : String
  invoiceNumber : String
deriving DecidableEq, Repr

instance : Inhabited AccountingEntry :=
  ⟨⟨0, "", "", 0, "", "", ""⟩⟩

/-- Status constants from `models.go`. -/
def StatusMatched : String := "matched"
def StatusUnmatchedBank : String := "unmatched_bank"

/-- Mapping-type constants from `models.go`. -/
def MappingOneToOne : String := "one_to_one"
def MappingOneToMany : String := "one_to_many"

/-- Audit-action constants from `models.go`. -/
def AuditActionCreated : String := "created"
def AuditActionMatched : String := "matched"
def AuditActionUnmatched : String := "unmatched"

/-! ## Match engine constants (`match_engine.go`) -/

def PerfectMatchConfidence : ℚ := 1
def HighMatchConfidence : ℚ := 95 / 100
def MediumMatchConfidence : ℚ := 80 / 100
def LowMatchConfidence : ℚ := 60 / 100
def AmountTolerancePercent : ℚ := 1 / 100
def DateToleranceDays : ℚ := 3

structure MatchResult where
  type : String
  confidence : ℚ
  bankTransaction : BankTransaction
  accountingEntries : List AccountingEntry
  amountDifference : ℚ
  matchCriteria : List String
deriving DecidableEq, Repr

/-! ## `checkOneToOneMatch` -/

/-- The date contribution to the one-to-one confidence: `+0.3` when the parsed
dates coincide, `+0.2` when within `DateToleranceDays`, else nothing. -/
def dateBonus (d1 d2 : String) : ℚ :=
  if dateDiffDays d1 d2 = 0 then 3 / 10
  else if dateDiffDays d1 d2 ≤ DateToleranceDays then 1 / 5
  else 0

/-- `match_engine.go` lines 130-180. The Go sequence of criteria appends is
reproduced: "amount" always (when the amount gate passes), "date" when the day
difference is within tolerance, "reference" when both references are set and
equal; a set, unequal reference pair resets the confidence to 0. -/
def checkOneToOneMatch (bt : BankTransaction) (ae : AccountingEntry) :
    Option MatchResult :=
  let amountDiff := |bt.amount - ae.amount|
  let amountTolerance := bt.amount * AmountTolerancePercent
  if amountDiff = 0 ∨ amountDiff ≤ amountTolerance then
    let confidence0 : ℚ := if amountDiff = 0 then 2 / 5 else 3 / 10
    let confidence1 := confidence0 + dateBonus bt.transactionDate ae.entryDate
    let criteria1 :=
      if dateDiffDays bt.transactionDate ae.entryDate ≤ DateToleranceDays then
        ["amount", "date"]
      else ["amount"]
    let confidence2 :=
      if bt.referenceNumber ≠ "" ∧ ae.invoiceNumber ≠ "" then
        (if bt.referenceNumber = ae.invoiceNumber then confidence1 + 3 / 10 else 0)
      else confidence1
    let criteria2 :=
      if bt.referenceNumber ≠ "" ∧ ae.invoiceNumber ≠ "" ∧
          bt.referenceNumber = ae.invoiceNumber then
        criteria1 ++ ["reference"]
      else criteria1
    if LowMatchConfidence ≤ confidence2 then
      some { type := MappingOneToOne, confidence := confidence2,
             bankTransaction := bt, accountingEntries := [ae],
             amountDifference := amountDiff, matchCriteria := criteria2 }
    else none
  else none

/-! ## Fan-out search (`findPossibleEntryCombinations`, `findCombinations`) -/

def entriesSum (entries : List AccountingEntry) : ℚ :=
  (entries.map (fun ae => ae.amount)).sum

/-- The candidate pre-filter loop of `findPossibleEntryCombinations`
(`match_engine.go` lines 246-253): an entry is kept only when it is unclaimed,
its amount is at most the target, the bank reference is non-empty, the invoice
number is non-empty, and the invoice number contains the bank reference; kept
entries are prepended, so the list ends up in reverse input order. -/
def candidatesFor (bt : BankTransaction) (targetAmount : ℚ)
    (processedIDs : List ℤ) (aes : List AccountingEntry) :
    List AccountingEntry :=
  aes.foldl
    (fun candidates ae =>
      if ae.id ∉ processedIDs ∧ ae.amount ≤ targetAmount then
        if bt.referenceNumber ≠ "" ∧ ae.invoiceNumber ≠ "" ∧
            strContains ae.invoiceNumber bt.referenceNumber = true then
          ae :: candidates
        else candidates
      else candidates)
    []

/-- `match_engine.go` lines 262-283: depth-first enumeration of size-`size`
sublists of `candidates`, appending to `result` those whose amount sum is
within the relative amount tolerance of `targetAmount`. -/
def findCombinations (candidates : List AccountingEntry) (size : Nat)
    (targetAmount : ℚ) (current : List AccountingEntry)
    (result : List (List AccountingEntry)) : List (List AccountingEntry) :=
  match size, candidates with
  | 0, _ =>
    if |targetAmount - entriesSum current| ≤ targetAmount * AmountTolerancePercent then
      result ++ [current]
    else result
  | _ + 1, [] => result
  | sz + 1, c :: rest =>
    if (c :: rest).length < sz + 1 then result
    else
      let result1 := findCombinations rest sz targetAmount (current ++ [c]) result
      findCombinations rest (sz + 1) targetAmount current result1

/-- `match_engine.go` lines 242-260. -/
def findPossibleEntryCombinations (bt : BankTransaction) (targetAmount : ℚ)
    (processedIDs : List ℤ) (aes : List AccountingEntry) :
    List (List AccountingEntry) :=
  let candidates := candidatesFor bt targetAmount processedIDs aes
  let r1 := findCombinations candidates 1 targetAmount [] []
  let r2 := findCombinations candidates 2 targetAmount [] r1
  findCombinations candidates 3 targetAmount [] r2

/-- Largest day difference between the bank date and any entry date
(`match_engine.go` lines 294-302, also lines 203-211). -/
def maxDateDiffOf (bt : BankTransaction) (entries : List AccountingEntry) : ℚ :=
  entries.foldl
    (fun acc ae =>
      let dd := dateDiffDays bt.transactionDate ae.entryDate
      if acc < dd then dd else acc)
    0

/-- `calculateOneToManyConfidence` (`match_engine.go` lines 285-325). -/
def calculateOneToManyConfidence (bt : BankTransaction)
    (entries : List AccountingEntry) (amountDiff : ℚ) : ℚ :=
  let confidence0 : ℚ := 7 / 10
  let confidence1 :=
    if amountDiff = 0 then confidence0 + 1 / 5
    else if amountDiff ≤ bt.amount * AmountTolerancePercent then confidence0 + 1 / 10
    else confidence0
  let confidence2 :=
    if maxDateDiffOf bt entries ≤ DateToleranceDays then confidence1 + 1 / 10
    else confidence1
  let confidence3 :=
    if bt.referenceNumber ≠ "" then
      let matchCount :=
        (entries.filter
          (fun ae => ae.invoiceNumber ≠ "" ∧
            strContains ae.invoiceNumber bt.referenceNumber = true)).length
      if 0 < matchCount then
        confidence2 + 1 / 10 * (matchCount : ℚ) / (entries.length : ℚ)
      else confidence2
    else confidence2
  if HighMatchConfidence < confidence3 then HighMatchConfidence else confidence3

/-- The criteria list built for a selected fan-out combination
(`match_engine.go` lines 200-224). -/
def oneToManyCriteria (bt : BankTransaction) (entries : List AccountingEntry) :
    List String :=
  let c := ["amount"]
  let c := if maxDateDiffOf bt entries ≤ DateToleranceDays then c ++ ["date"] else c
  if bt.referenceNumber ≠ "" ∧
      entries.any (fun ae =>
        ae.invoiceNumber ≠ "" && strContains ae.invoiceNumber bt.referenceNumber) then
    c ++ ["reference"]
  else c

/-- The `MatchResult` built for a selected fan-out combination. -/
def mkOneToMany (bt : BankTransaction) (entries : List AccountingEntry)
    (difference confidence : ℚ) : MatchResult :=
  { type := MappingOneToMany, confidence := confidence, bankTransaction := bt,
    accountingEntries := entries, amountDifference := difference,
    matchCriteria := oneToManyCriteria bt entries }

/-- The best-combination loop of `findOneToManyMatch` (`match_engine.go`
lines 188-237): the accumulator carries `(minDifference, bestMatch)`. -/
def otmLoop (bt : BankTransaction) :
    List (List AccountingEntry) → ℚ × Option MatchResult → ℚ × Option MatchResult
  | [], acc => acc
  | entries :: rest, acc =>
    let difference := |bt.amount - entriesSum entries|
    if difference < acc.1 then
      let confidence := calculateOneToManyConfidence bt entries difference
      if MediumMatchConfidence ≤ confidence then
        otmLoop bt rest (difference, some (mkOneToMany bt entries difference confidence))
      else otmLoop bt rest (difference, acc.2)
    else otmLoop bt rest acc

/-- `findOneToManyMatch` (`match_engine.go` lines 182-240); `minDifference`
starts at the full bank amount. -/
def findOneToManyMatch (bt : BankTransaction) (processedIDs : List ℤ)
    (aes : List AccountingEntry) : Option MatchResult :=
  (otmLoop bt (findPossibleEntryCombinations bt bt.amount processedIDs aes)
    (bt.amount, none)).2

/-! ## `ProcessMatches` (three passes over the bank transactions) -/

structure EngineState where
  results : List MatchResult
  usedB : List ℤ
  usedA : List ℤ
deriving Repr

/-- Pass 1 inner loop: first unclaimed entry giving a perfect one-to-one. -/
def pass1Find (bt : BankTransaction) (usedA : List ℤ) :
    List AccountingEntry → Option (MatchResult × AccountingEntry)
  | [] => none
  | ae :: rest =>
    if ae.id ∈ usedA then pass1Find bt usedA rest
    else
      match checkOneToOneMatch bt ae with
      | some r =>
        if r.confidence = PerfectMatchConfidence then some (r, ae)
        else pass1Find bt usedA rest
      | none => pass1Find bt usedA rest

/-- Pass 1 body for one bank transaction (`match_engine.go` lines 68-85). -/
def pass1Step (aes : List AccountingEntry) (s : EngineState)
    (bt : BankTransaction) : EngineState :=
  if bt.id ∈ s.usedB then s
  else
    match pass1Find bt s.usedA aes with
    | some (r, ae) =>
      { results := s.results ++ [r], usedB := s.usedB ++ [bt.id],
        usedA := s.usedA ++ [ae.id] }
    | none => s

/-- Pass 2 body for one bank transaction (`match_engine.go` lines 87-99). -/
def pass2Step (aes : List AccountingEntry) (s : EngineState)
    (bt : BankTransaction) : EngineState :=
  if bt.id ∈ s.usedB then s
  else
    match findOneToManyMatch bt s.usedA aes with
    | some r =>
      { results := s.results ++ [r], usedB := s.usedB ++ [bt.id],
        usedA := s.usedA ++ r.accountingEntries.map (fun ae => ae.id) }
    | none => s

/-- Pass 3 inner loop: best-confidence unclaimed one-to-one candidate
(strictly improving, so the earliest of equal confidences is kept). -/
def pass3Best (bt : BankTransaction) (usedA : List ℤ) :
    List AccountingEntry → Option MatchResult × ℚ → Option MatchResult × ℚ
  | [], acc => acc
  | ae :: rest, acc =>
    if ae.id ∈ usedA then pass3Best bt usedA rest acc
    else
      match checkOneToOneMatch bt ae with
      | some r =>
        if acc.2 < r.confidence then pass3Best bt usedA rest (some r, r.confidence)
        else pass3Best bt usedA rest acc
      | none => pass3Best bt usedA rest acc

/-- Pass 3 body for one bank transaction (`match_engine.go` lines 101-125);
the chosen entry is re-read as `AccountingEntries[0]`. -/
def pass3Step (aes : List AccountingEntry) (s : EngineState)
    (bt : BankTransaction) : EngineState :=
  if bt.id ∈ s.usedB then s
  else
    match (pass3Best bt s.usedA aes (none, 0)).1 with
    | some r =>
      if LowMatchConfidence ≤ r.confidence then
        { results := s.results ++ [r], usedB := s.usedB ++ [bt.id],
          usedA := s.usedA ++ [(r.accountingEntries.headI).id] }
      else s
    | none => s

/-- The engine state after the three passes of `ProcessMatches`
(`match_engine.go` lines 62-128). -/
def processMatchesState (bts : List BankTransaction)
    (aes : List AccountingEntry) : EngineState :=
  let s1 := bts.foldl (pass1Step aes) ⟨[], [], []⟩
  let s2 := bts.foldl (pass2Step aes) s1
  bts.foldl (pass3Step aes) s2

/-- `ProcessMatches` (the Go version never returns a non-nil error). -/
def processMatches (bts : List BankTransaction) (aes : List AccountingEntry) :
    List MatchResult :=
  (processMatchesState bts aes).results

/-! ## Store and transaction model

The MySQL store is modelled as lists of rows plus auto-increment counters.  A
`Tx` buffers the writes of one `db.Begin()` transaction; `commitTx` applies
them, and rollback simply discards the buffer (the deferred `tx.Rollback()` of
the Go code).  Each repository call consumes one tick of an explicit failure
oracle `fail : ℕ → Bool`; when the oracle fires the call returns the error the
corresponding Go path would produce. -/

structure Reconciliation where
  id : ℤ
  batchId : String
  status : String
  matchConfidence : ℚ
  amountDifference : ℚ
deriving DecidableEq, Repr

structure ReconciliationMapping where
  id : ℤ
  reconciliationId : ℤ
  bankTransactionId : Option ℤ
  accountingEntryId : Option ℤ
  mappingType : String
deriving DecidableEq, Repr

/-- The structured payloads the service marshals into audit `details`. -/
inductive AuditDetails where
  | matched (matchType : String) (confidence : ℚ) (criteria : List String)
  | unmatched (bankTransactions : String) (accountingEntries : List String)
  | created (totalRecords successful failed : Nat)
deriving DecidableEq, Repr

structure ReconciliationAudit where
  id : ℤ
  reconciliationId : ℤ
  action : String
  details : AuditDetails
  userId : String
deriving DecidableEq, Repr

structure Store where
  banks : List BankTransaction
  reconciliations : List Reconciliation
  mappings : List ReconciliationMapping
  audits : List ReconciliationAudit
  nextBankId : ℤ
  nextReconciliationId : ℤ
  nextMappingId : ℤ
  nextAuditId : ℤ
deriving DecidableEq, Repr

def emptyStore : Store :=
  { banks := [], reconciliations := [], mappings := [], audits := [],
    nextBankId := 1, nextReconciliationId := 1, nextMappingId := 1,
    nextAuditId := 1 }

structure Tx where
  pendingBanks : List BankTransaction
  pendingRecs : List Reconciliation
  pendingMaps : List ReconciliationMapping
  pendingAudits : List ReconciliationAudit
  nextBankId : ℤ
  nextReconciliationId : ℤ
  nextMappingId : ℤ
  nextAuditId : ℤ
  opIndex : ℕ
deriving DecidableEq, Repr

/-- `db.Begin()`: an empty write buffer over the current store. -/
def beginTx (store : Store) : Tx :=
  { pendingBanks := [], pendingRecs := [], pendingMaps := [],
    pendingAudits := [], nextBankId := store.nextBankId,
    nextReconciliationId := store.nextReconciliationId,
    nextMappingId := store.nextMappingId, nextAuditId := store.nextAuditId,
    opIndex := 0 }

/-- `tx.Commit()`: apply all buffered writes to the store. -/
def commitTx (store : Store) (tx : Tx) : Store :=
  { banks := store.banks ++ tx.pendingBanks,
    reconciliations := store.reconciliations ++ tx.pendingRecs,
    mappings := store.mappings ++ tx.pendingMaps,
    audits := store.audits ++ tx.pendingAudits,
    nextBankId := tx.nextBankId,
    nextReconciliationId := tx.nextReconciliationId,
    nextMappingId := tx.nextMappingId,
    nextAuditId := tx.nextAuditId }

/-- `reconciliationRepo.CreateReconciliation` inside the transaction: assigns
the auto-increment id (the Go code reads `LastInsertId` back into the model). -/
def txCreateReconciliation (fail : ℕ → Bool) (tx : Tx) (r : Reconciliation) :
    Except String (Reconciliation × Tx) :=
  if fail tx.opIndex then Except.error "failed to create reconciliation batch"
  else
    let r' := { r with id := tx.nextReconciliationId }
    Except.ok (r', { tx with pendingRecs := tx.pendingRecs ++ [r'],
                             nextReconciliationId := tx.nextReconciliationId + 1,
                             opIndex := tx.opIndex + 1 })

/-- `reconciliationRepo.CreateMapping` inside the transaction. -/
def txCreateMapping (fail : ℕ → Bool) (tx : Tx) (m : ReconciliationMapping) :
    Except String Tx :=
  if fail tx.opIndex then Except.error "failed to create mapping"
  else
    let m' := { m with id := tx.nextMappingId }
    Except.ok { tx with pendingMaps := tx.pendingMaps ++ [m'],
                        nextMappingId := tx.nextMappingId + 1,
                        opIndex := tx.opIndex + 1 }

/-- `reconciliationRepo.CreateAuditEntry` inside the transaction. -/
def txCreateAuditEntry (fail : ℕ → Bool) (tx : Tx) (a : ReconciliationAudit) :
    Except String Tx :=
  if fail tx.opIndex then Except.error "failed to create audit entry"
  else
    let a' := { a with id := tx.nextAuditId }
    Except.ok { tx with pendingAudits := tx.pendingAudits ++ [a'],
                        nextAuditId := tx.nextAuditId + 1,
                        opIndex := tx.opIndex + 1 }

/-- `bankRepo.InsertBankTransaction` inside the transaction. -/
def txInsertBankTransaction (fail : ℕ → Bool) (tx : Tx) (bt : BankTransaction) :
    Except String Tx :=
  if fail tx.opIndex then Except.error "failed to insert transaction"
  else
    let bt' := { bt with id := tx.nextBankId }
    Except.ok { tx with pendingBanks := tx.pendingBanks ++ [bt'],
                        nextBankId := tx.nextBankId + 1,
                        opIndex := tx.opIndex + 1 }

/-- The failure oracle of a healthy store: no repository call ever fails. -/
def neverFail : ℕ → Bool := fun _ => false

/-! ## `ProcessReconciliationWithData` (`reconciliation_service.go` 68-321) -/

structure MatchesResult where
  type : String
  confidence : ℚ
  bankTransaction : String
  accountingEntry : String
  amountDifference : ℚ
  matchCriteria : List String
deriving DecidableEq, Repr

structure UnmatchResult where
  bankTransactions : String
  accountingEntries : List String
deriving DecidableEq, Repr

structure Summary where
  totalProcessed : ℕ
  matched : ℕ
  unmatched : ℕ
  disputed : ℕ
deriving DecidableEq, Repr

structure ReconciliationResult where
  batchId : String
  status : String
  matchResults : List MatchesResult
  unmatched : List UnmatchResult
  summary : Summary
deriving DecidableEq, Repr

/-- Go's `fmt.Sprintf("%v", xs)` for a `[]string`. -/
def goFormatStrings (l : List String) : String :=
  "[" ++ String.intercalate " " l ++ "]"

/-- The report view of one match (`reconciliation_service.go` lines 234-250). -/
def matchesResultOf (m : MatchResult) : MatchesResult :=
  { type := m.type, confidence := m.confidence,
    bankTransaction := m.bankTransaction.transactionId,
    accountingEntry := goFormatStrings (m.accountingEntries.map (fun ae => ae.entryId)),
    amountDifference := m.amountDifference, matchCriteria := m.matchCriteria }

/-- Bank ids claimed by the per-match persistence goroutines
(`reconciliation_service.go` lines 151, 167, 197-210). -/
def claimedBankIds (ms : List MatchResult) : List ℤ :=
  ms.map (fun m => m.bankTransaction.id)

/-- Accounting ids claimed by the per-match persistence goroutines: only the
first entry for a `one_to_one` match, every entry otherwise. -/
def claimedAccountingIds (ms : List MatchResult) : List ℤ :=
  ms.flatMap (fun m =>
    if m.type = MappingOneToOne then [(m.accountingEntries.headI).id]
    else m.accountingEntries.map (fun ae => ae.id))

/-- One Mapping row per accounting entry of a fan-out match
(`reconciliation_service.go` lines 153-168). -/
def createMappingsFor (fail : ℕ → Bool) (recId : ℤ) (btId : ℤ) (mtype : String) :
    List AccountingEntry → Tx → Except String Tx
  | [], tx => Except.ok tx
  | ae :: rest, tx =>
    match txCreateMapping fail tx
        { id := 0, reconciliationId := recId, bankTransactionId := some btId,
          accountingEntryId := some ae.id, mappingType := mtype } with
    | Except.error e => Except.error e
    | Except.ok tx' => createMappingsFor fail recId btId mtype rest tx'

/-- The body of the per-match goroutine (`reconciliation_service.go` lines
106-190): one Reconciliation row carrying this match's own confidence and
amount difference, the mapping row(s), and one `matched` audit event. -/
def persistMatch (fail : ℕ → Bool) (batchKey : String) (m : MatchResult)
    (tx : Tx) : Except String Tx :=
  match txCreateReconciliation fail tx
      { id := 0, batchId := batchKey, status := "matched",
        matchConfidence := m.confidence,
        amountDifference := m.amountDifference } with
  | Except.error e => Except.error e
  | Except.ok (rec, tx1) =>
    let afterMaps :=
      if m.type = MappingOneToOne then
        txCreateMapping fail tx1
          { id := 0, reconciliationId := rec.id,
            bankTransactionId := some m.bankTransaction.id,
            accountingEntryId := some ((m.accountingEntries.headI).id),
            mappingType := m.type }
      else
        createMappingsFor fail rec.id m.bankTransaction.id m.type
          m.accountingEntries tx1
    match afterMaps with
    | Except.error e => Except.error e
    | Except.ok tx2 =>
      txCreateAuditEntry fail tx2
        { id := 0, reconciliationId := rec.id, action := AuditActionMatched,
          details := AuditDetails.matched m.type m.confidence m.matchCriteria,
          userId := "" }

/-- All matches, in emission order (the Go goroutines are sequentialized; the
coordinator aborts on the first error it collects). -/
def persistMatches (fail : ℕ → Bool) (batchKey : String) :
    List MatchResult → Tx → Except String Tx
  | [], tx => Except.ok tx
  | m :: rest, tx =>
    match persistMatch fail batchKey m tx with
    | Except.error e => Except.error e
    | Except.ok tx' => persistMatches fail batchKey rest tx'

/-- The transaction id reported for an unmatched accounting entry: the last
bank transaction whose reference number equals the invoice number
(`reconciliation_service.go` lines 255-265). -/
def lastMatchingTrId (bts : List BankTransaction) (invoiceNumber : String) :
    String :=
  bts.foldl
    (fun acc bt => if bt.referenceNumber = invoiceNumber then bt.transactionId else acc)
    ""

/-- The per-unmatched-accounting-entry loop (`reconciliation_service.go` lines
252-299): one Reconciliation row with status `unmatched`, one `unmatched`
audit event, and one report entry each. -/
def persistUnmatched (fail : ℕ → Bool) (batchKey : String)
    (bts : List BankTransaction) :
    List AccountingEntry → List UnmatchResult → Tx →
    Except String (List UnmatchResult × Tx)
  | [], um, tx => Except.ok (um, tx)
  | ae :: rest, um, tx =>
    let trId := lastMatchingTrId bts ae.invoiceNumber
    let entryIds := [ae.entryId]
    match txCreateReconciliation fail tx
        { id := 0, batchId := batchKey, status := "unmatched",
          matchConfidence := 0, amountDifference := 0 } with
    | Except.error e => Except.error e
    | Except.ok (rec, tx1) =>
      match txCreateAuditEntry fail tx1
          { id := 0, reconciliationId := rec.id,
            action := AuditActionUnmatched,
            details := AuditDetails.unmatched trId entryIds, userId := "" } with
      | Except.error e => Except.error e
      | Except.ok tx2 =>
        persistUnmatched fail batchKey bts rest
          (um ++ [{ bankTransactions := trId, accountingEntries := entryIds }]) tx2

/-- Everything `ProcessReconciliationWithData` does between `db.Begin()` and
`tx.Commit()`, producing the response value and the populated transaction.
`batchKey` stands for the `REC-...` identifier derived from the wall clock. -/
def runBatchTx (fail : ℕ → Bool) (batchKey : String)
    (bts : List BankTransaction) (aes : List AccountingEntry) (tx : Tx) :
    Except String (ReconciliationResult × Tx) :=
  let ms := processMatches bts aes
  match persistMatches fail batchKey ms tx with
  | Except.error e => Except.error e
  | Except.ok tx1 =>
    let claimedB := claimedBankIds ms
    let claimedA := claimedAccountingIds ms
    let unmatchedBank := bts.filter (fun bt => bt.id ∉ claimedB)
    let unmatchedAccounting := aes.filter (fun ae => ae.id ∉ claimedA)
    let summary : Summary :=
      { totalProcessed := bts.length + aes.length, matched := ms.length,
        unmatched := unmatchedBank.length, disputed := 0 }
    match persistUnmatched fail batchKey bts unmatchedAccounting [] tx1 with
    | Except.error e => Except.error e
    | Except.ok (um, tx2) =>
      Except.ok
        ({ batchId := batchKey,
           status := if 0 < um.length then "completed" else "matches",
           matchResults := ms.map matchesResultOf, unmatched := um,
           summary := summary }, tx2)

/-- `ProcessReconciliationWithData`: run the batch inside one transaction; on
any error the deferred `tx.Rollback()` leaves the store untouched, otherwise
`tx.Commit()` (itself fallible) applies the buffered writes. -/
def processReconciliationWithData (fail : ℕ → Bool) (batchKey : String)
    (bts : List BankTransaction) (aes : List AccountingEntry) (store : Store) :
    Except String ReconciliationResult × Store :=
  match runBatchTx fail batchKey bts aes (beginTx store) with
  | Except.error e => (Except.error e, store)
  | Except.ok (res, tx) =>
    if fail tx.opIndex then (Except.error "failed to commit transaction", store)
    else (Except.ok res, commitTx store tx)

/-! ## Data ingestion service (`IngestBankTransactions`) and its handler -/

structure BankTransactionInput where
  transactionId : String
  accountNumber : String
  amount : ℚ
  transactionDate : String
  description : String
  referenceNumber : String
deriving DecidableEq, Repr

/-- `validateBankTransaction`: `none` when the row passes, otherwise the
error message. -/
def validateBankTransaction (input : BankTransactionInput) : Option String :=
  if input.transactionId = "" then some "transaction_id is required"
  else if input.accountNumber = "" then some "account_number is required"
  else if input.amount = 0 then some "amount is required and must be non-zero"
  else if input.transactionDate = "" then some "transaction_date is required"
  else none

structure IngestionResult where
  success : Bool
  recordsCount : ℕ
  errors : List String
  detailsTotal : ℕ
  detailsSuccessful : ℕ
  detailsFailed : ℕ
deriving DecidableEq, Repr

/-- The per-row ingest loop: validation failures and insert failures are
recorded per row, successful rows are buffered in the transaction. -/
def ingestLoop (fail : ℕ → Bool) :
    List BankTransactionInput → ℕ → List String → Tx →
    ℕ × List String × Tx
  | [], count, errs, tx => (count, errs, tx)
  | input :: rest, count, errs, tx =>
    match validateBankTransaction input with
    | some msg =>
      ingestLoop fail rest count
        (errs ++ ["Invalid transaction " ++ input.transactionId ++ ": " ++ msg]) tx
    | none =>
      let bt : BankTransaction :=
        { id := 0, transactionId := input.transactionId,
          accountNumber := input.accountNumber, amount := input.amount,
          transactionDate := input.transactionDate,
          description := input.description,
          referenceNumber := input.referenceNumber }
      match txInsertBankTransaction fail tx bt with
      | Except.error e =>
        ingestLoop fail rest count
          (errs ++ ["Failed to insert transaction " ++ input.transactionId ++ ": " ++ e]) tx
      | Except.ok tx' => ingestLoop fail rest (count + 1) errs tx'

/-- `DataIngestionService.IngestBankTransactions`: note that `tx.Commit()` is
reached only when `result.Success` is true, i.e. when **no** row failed; on a
mixed batch the deferred `tx.Rollback()` silently discards the successfully
inserted rows while the result still reports them as successful. -/
def ingestBankTransactions (fail : ℕ → Bool)
    (transactions : List BankTransactionInput) (store : Store) :
    Except String IngestionResult × Store :=
  let tx := beginTx store
  let (count, errs, tx1) := ingestLoop fail transactions 0 [] tx
  let afterAudit :=
    if 0 < count then
      txCreateAuditEntry fail tx1
        { id := 0, reconciliationId := 0, action := AuditActionCreated,
          details := AuditDetails.created transactions.length count errs.length,
          userId := "system" }
    else Except.ok tx1
  match afterAudit with
  | Except.error e => (Except.error e, store)
  | Except.ok tx2 =>
    let result : IngestionResult :=
      { success := errs.isEmpty, recordsCount := count, errors := errs,
        detailsTotal := transactions.length, detailsSuccessful := count,
        detailsFailed := errs.length }
    if result.success then
      if fail tx2.opIndex then (Except.error "failed to commit transaction", store)
      else (Except.ok result, commitTx store tx2)
    else (Except.ok result, store)

/-- The HTTP status the data handler writes for an ingestion result
(`handlers`: 200, or 206 Partial Content when `Success` is false). -/
def ingestResponseStatus (result : IngestionResult) : ℕ :=
  if result.success then 200 else 206

/-! ## Auxiliary definitions used by the proofs: predicates, invariants,
and the concrete inputs of the witnesses and counterexamples -/

/-- The predicate the source's pre-filter loop actually keeps: unclaimed,
amount-eligible, **and** reference-matching (both reference fields non-empty
and the invoice number containing the bank reference). -/
def keepsEntry (bt : BankTransaction) (targetAmount : ℚ)
    (processedIDs : List ℤ) (ae : AccountingEntry) : Bool :=
  decide (ae.id ∉ processedIDs) && decide (ae.amount ≤ targetAmount) &&
  decide (bt.referenceNumber ≠ "") && decide (ae.invoiceNumber ≠ "") &&
  strContains ae.invoiceNumber bt.referenceNumber

def c6Bank : BankTransaction :=
  ⟨1, "T1", "ACC", 100, "2024-01-15", "", ""⟩

def c6Entry : AccountingEntry :=
  ⟨10, "E10", "C", 50, "2024-01-15", "", "X"⟩

def c3ValidInput : BankTransactionInput :=
  ⟨"T1", "ACC-1", 100, "2024-01-15", "", ""⟩

def c3InvalidInput : BankTransactionInput :=
  ⟨"", "ACC-2", 50, "2024-01-16", "", ""⟩

def perfectBank1 : BankTransaction :=
  ⟨1, "T1", "ACC", 100, "2024-01-15", "", "A"⟩

def perfectEntry1 : AccountingEntry :=
  ⟨10, "E10", "C", 100, "2024-01-15", "", "A"⟩

def c8Bank : BankTransaction :=
  ⟨1, "T1", "ACC", 50, "2024-01-15", "", ""⟩

/-- The id-independent view of a Batch row: status, confidence, difference. -/
def recView (r : Reconciliation) : String × ℚ × ℚ :=
  (r.status, r.matchConfidence, r.amountDifference)

def perfectBank2 : BankTransaction :=
  ⟨2, "T2", "ACC", 200, "2024-01-15", "", "B"⟩

def perfectEntry2 : AccountingEntry :=
  ⟨11, "E11", "C", 200, "2024-01-15", "", "B"⟩

/-- `|b.amount − Σ amounts|` of a candidate combination. -/
def diffOf (bt : BankTransaction) (l : List AccountingEntry) : ℚ :=
  |bt.amount - entriesSum l|

def c7Bank : BankTransaction :=
  ⟨1, "T1", "ACC", 100, "2024-01-15", "", "R"⟩

def c7EntryA : AccountingEntry :=
  ⟨1, "E1", "C", 100, "2024-01-15", "", "R1"⟩

def c7EntryB : AccountingEntry :=
  ⟨2, "E2", "C", 100, "2024-01-15", "", "R2"⟩

instance : Inhabited BankTransaction :=
  ⟨⟨0, "", "", 0, "", "", ""⟩⟩

instance : Inhabited MatchResult :=
  ⟨⟨"", 0, default, [], 0, []⟩⟩

/-- Two proposals claim disjoint candidates. -/
def Disj (r s : MatchResult) : Prop :=
  r.bankTransaction.id ≠ s.bankTransaction.id ∧
  ∀ a ∈ r.accountingEntries, ∀ b ∈ s.accountingEntries, a.id ≠ b.id

/-- Facts true of every proposal the engine ever appends. -/
def ResultSane (r : MatchResult) : Prop :=
  (r.type = MappingOneToOne →
    ∃ bt ae, r.accountingEntries = [ae] ∧ checkOneToOneMatch bt ae = some r) ∧
  0 ≤ r.amountDifference ∧
  (0 ≤ r.bankTransaction.amount →
    r.amountDifference ≤ r.bankTransaction.amount * AmountTolerancePercent) ∧
  1 ≤ r.accountingEntries.length ∧ r.accountingEntries.length ≤ 3

/-- Invariant maintained by every pass of `ProcessMatches`: all claimed ids of
emitted proposals are registered in the claim sets, proposals are pairwise
disjoint, and each proposal is sane. -/
def EngineInv (s : EngineState) : Prop :=
  (∀ r ∈ s.results, r.bankTransaction.id ∈ s.usedB ∧
    ∀ a ∈ r.accountingEntries, a.id ∈ s.usedA) ∧
  s.results.Pairwise Disj ∧
  (∀ r ∈ s.results, ResultSane r)

def negBank : BankTransaction :=
  ⟨1, "T1", "ACC", -100, "2024-01-15", "", "R"⟩

def negEntry : AccountingEntry :=
  ⟨10, "E10", "C", -100, "2024-01-15", "", "R"⟩

/-! # Lemmas about `checkOneToOneMatch` -/

/-- Every successful one-to-one check returns a proposal over exactly that
pair, with the absolute amount difference, and only when that difference is
zero or within the relative tolerance. -/
theorem checkOneToOneMatch_shape {bt : BankTransaction} {ae : AccountingEntry}
    {r : MatchResult} (h : checkOneToOneMatch bt ae = some r) :
    r.bankTransaction = bt ∧ r.type = MappingOneToOne ∧
    r.accountingEntries = [ae] ∧
    r.amountDifference = |bt.amount - ae.amount| ∧
    (|bt.amount - ae.amount| = 0 ∨
      |bt.amount - ae.amount| ≤ bt.amount * AmountTolerancePercent) := by
  simp only [checkOneToOneMatch] at h
  split at h
  case isTrue hgate =>
    repeat' split at h
    all_goals
      first
      | exact Option.noConfusion h
      | (injection h with h; subst h; exact ⟨rfl, rfl, rfl, rfl, hgate⟩)
  case isFalse => exact Option.noConfusion h

/-- A set, unequal reference pair is vetoed: the confidence is hard-reset to 0
and the check returns `none`. -/
theorem checkOneToOneMatch_veto (bt : BankTransaction) (ae : AccountingEntry)
    (h1 : bt.referenceNumber ≠ "") (h2 : ae.invoiceNumber ≠ "")
    (h3 : bt.referenceNumber ≠ ae.invoiceNumber) :
    checkOneToOneMatch bt ae = none := by
  simp only [checkOneToOneMatch]
  split
  · rw [if_pos (And.intro h1 h2),
      if_neg (show ¬(LowMatchConfidence ≤ (0 : ℚ)) by norm_num [LowMatchConfidence])]
  · rfl

/-! # C9 — malformed dates parse to the zero time and earn the exact-date bonus -/

/-- C9 (confirmed). `checkOneToOneMatch` is total over arbitrary date strings:
`time.Parse` errors are discarded and the zero time is used for that side
(`goDateDays`), so when both `TransactionDate` and `EntryDate` fail to parse
as `YYYY-MM-DD` the two sides collapse to the same zero time, the day
difference is 0, and the pair receives the exact-date confidence bonus `+0.3`
(`dateBonus`, used verbatim inside `checkOneToOneMatch`) as though the dates
were equal. -/
theorem claimC9_malformed_dates_get_exact_bonus (d1 d2 : String)
    (h1 : parseYMD d1 = none) (h2 : parseYMD d2 = none) :
    dateDiffDays d1 d2 = 0 ∧ dateBonus d1 d2 = 3 / 10 := by
  have e1 : goDateDays d1 = goZeroDays := by simp [goDateDays, h1]
  have e2 : goDateDays d2 = goZeroDays := by simp [goDateDays, h2]
  have hd : dateDiffDays d1 d2 = 0 := by simp [dateDiffDays, e1, e2]
  exact ⟨hd, by simp [dateBonus, hd]⟩

/-- Witness for C9 at two concretely malformed date strings (one not shaped
like a date at all, one with an out-of-range month). -/
theorem claimC9_witness :
    dateDiffDays "not-a-date" "2024-13-01" = 0 ∧
    dateBonus "not-a-date" "2024-13-01" = 3 / 10 :=
  claimC9_malformed_dates_get_exact_bonus "not-a-date" "2024-13-01"
    (by decide) (by decide)

/-! # C6 — the fan-out candidate pre-filter -/

theorem keepsEntry_iff {bt : BankTransaction} {targetAmount : ℚ}
    {processedIDs : List ℤ} {ae : AccountingEntry} :
    keepsEntry bt targetAmount processedIDs ae = true ↔
      ae.id ∉ processedIDs ∧ ae.amount ≤ targetAmount ∧
      bt.referenceNumber ≠ "" ∧ ae.invoiceNumber ≠ "" ∧
      strContains ae.invoiceNumber bt.referenceNumber = true := by
  simp [keepsEntry, and_assoc]

/-- The pre-filter loop prepends exactly the entries satisfying `keepsEntry`,
hence returns them in reverse input order. -/
theorem candidatesFor_eq_filter (bt : BankTransaction) (targetAmount : ℚ)
    (processedIDs : List ℤ) (aes : List AccountingEntry) :
    candidatesFor bt targetAmount processedIDs aes =
      (aes.filter (keepsEntry bt targetAmount processedIDs)).reverse := by
  suffices h : ∀ (l : List AccountingEntry) (acc : List AccountingEntry),
      l.foldl
        (fun candidates ae =>
          if ae.id ∉ processedIDs ∧ ae.amount ≤ targetAmount then
            if bt.referenceNumber ≠ "" ∧ ae.invoiceNumber ≠ "" ∧
                strContains ae.invoiceNumber bt.referenceNumber = true then
              ae :: candidates
            else candidates
          else candidates)
        acc =
      (l.filter (keepsEntry bt targetAmount processedIDs)).reverse ++ acc by
    simpa [candidatesFor] using h aes []
  intro l
  induction l with
  | nil => intro acc; simp
  | cons a l ih =>
    intro acc
    by_cases hk :
      a.id ∉ processedIDs ∧ a.amount ≤ targetAmount ∧
        bt.referenceNumber ≠ "" ∧ a.invoiceNumber ≠ "" ∧
        strContains a.invoiceNumber bt.referenceNumber = true
    · have hb : keepsEntry bt targetAmount processedIDs a = true :=
        keepsEntry_iff.mpr hk
      obtain ⟨hk1, hk2, hk3, hk4, hk5⟩ := hk
      simp only [List.foldl_cons, List.filter_cons, hb, if_true,
        if_pos (And.intro hk1 hk2), if_pos (And.intro hk3 (And.intro hk4 hk5))]
      rw [ih]
      simp
    · have hb : keepsEntry bt targetAmount processedIDs a = false := by
        rcases Bool.eq_false_or_eq_true (keepsEntry bt targetAmount processedIDs a)
          with hf | ht
        · exact absurd (keepsEntry_iff.mp hf) hk
        · exact ht
      have hstep :
          (if a.id ∉ processedIDs ∧ a.amount ≤ targetAmount then
            if bt.referenceNumber ≠ "" ∧ a.invoiceNumber ≠ "" ∧
                strContains a.invoiceNumber bt.referenceNumber = true then
              a :: acc
            else acc
          else acc) = acc := by
        by_cases h1 : a.id ∉ processedIDs ∧ a.amount ≤ targetAmount
        · by_cases h2 : bt.referenceNumber ≠ "" ∧ a.invoiceNumber ≠ "" ∧
              strContains a.invoiceNumber bt.referenceNumber = true
          · exact absurd ⟨h1.1, h1.2, h2.1, h2.2.1, h2.2.2⟩ hk
          · simp [h1, h2]
        · simp [h1]
      simp only [List.foldl_cons, List.filter_cons, hb, Bool.false_eq_true,
        if_false, hstep, ih]

/-- Unpacked membership in the candidate list. -/
theorem mem_candidatesFor {bt : BankTransaction} {targetAmount : ℚ}
    {processedIDs : List ℤ} {aes : List AccountingEntry} {a : AccountingEntry}
    (h : a ∈ candidatesFor bt targetAmount processedIDs aes) :
    a ∈ aes ∧ a.id ∉ processedIDs ∧ a.amount ≤ targetAmount ∧
    bt.referenceNumber ≠ "" ∧ a.invoiceNumber ≠ "" ∧
    strContains a.invoiceNumber bt.referenceNumber = true := by
  rw [candidatesFor_eq_filter, List.mem_reverse, List.mem_filter] at h
  exact ⟨h.1, keepsEntry_iff.mp h.2⟩

/-- C6 counterexample: the bank row `c6Bank` has an empty reference number and
the unclaimed entry `c6Entry` is amount-eligible, yet the pre-filter keeps
nothing — the claim's "a bank row with an empty reference_number still gets
all amount-eligible candidates" is false on the code. -/
theorem claimC6_counterexample_empty_reference :
    c6Entry.amount ≤ c6Bank.amount ∧ c6Entry.id ∉ ([] : List ℤ) ∧
    candidatesFor c6Bank c6Bank.amount [] [c6Entry] = [] := by decide

/-- C6 (corrected). The pre-filter keeps exactly the unclaimed entries with
`a.amount ≤ target` whose invoice number is non-empty and contains the
**non-empty** bank reference number as a substring — the substring condition
is not optional: a bank row with an empty reference number gets **no**
candidates at all, and amount-eligible entries failing the reference
condition are dropped rather than kept behind the reference matches.  Kept
entries appear in reverse input order (the loop prepends), which is the only
sense in which reference matches are "placed ahead". -/
theorem claimC6_prefilter_characterization (bt : BankTransaction)
    (targetAmount : ℚ) (processedIDs : List ℤ) (aes : List AccountingEntry) :
    candidatesFor bt targetAmount processedIDs aes =
      (aes.filter (keepsEntry bt targetAmount processedIDs)).reverse :=
  candidatesFor_eq_filter bt targetAmount processedIDs aes

/-! # C3 — partial ingest: 206 response but full rollback -/

/-- C3 (code bug, evaluated at the failing input): with one valid and one
invalid row the service reports partial success (`success = false`,
`recordsCount = 1`, one per-row error, HTTP 206), but `tx.Commit()` is
guarded by `result.Success`, so the whole transaction — including the
successfully inserted row — is rolled back and the store is unchanged,
contradicting the specified "commit the successful rows" policy. -/
theorem claimC3_partial_ingest_rolls_back :
    (ingestBankTransactions neverFail [c3ValidInput, c3InvalidInput] emptyStore).2
      = emptyStore ∧
    ∃ r, (ingestBankTransactions neverFail [c3ValidInput, c3InvalidInput]
        emptyStore).1 = Except.ok r ∧
      r.success = false ∧ r.recordsCount = 1 ∧ r.errors.length = 1 ∧
      ingestResponseStatus r = 206 := by
  exact ⟨rfl, _, rfl, rfl, rfl, rfl, rfl⟩

/-! # C1 — transactional atomicity of the batch persister -/

/-- C1 (confirmed). Every repository failure inside
`ProcessReconciliationWithData` — creating a Batch row, a Mapping, or an
AuditEvent while persisting matches or residuals, or the final commit —
propagates as an error of the whole call, and on every error path the
deferred `tx.Rollback()` leaves the committed store exactly as it was: no
Batch, Mapping, or AuditEvent of the attempt is observable. -/
theorem claimC1_persist_failure_rolls_back (fail : ℕ → Bool)
    (batchKey : String) (bts : List BankTransaction)
    (aes : List AccountingEntry) (store : Store) :
    (∀ e, runBatchTx fail batchKey bts aes (beginTx store) = Except.error e →
      processReconciliationWithData fail batchKey bts aes store =
        (Except.error e, store)) ∧
    (∀ e,
      (processReconciliationWithData fail batchKey bts aes store).1 =
        Except.error e →
      (processReconciliationWithData fail batchKey bts aes store).2 = store) := by
  constructor
  · intro e he
    simp [processReconciliationWithData, he]
  · intro e he
    rcases h : runBatchTx fail batchKey bts aes (beginTx store) with e' | ⟨res, tx⟩
    · simp [processReconciliationWithData, h]
    · simp only [processReconciliationWithData, h] at he ⊢
      by_cases hc : fail tx.opIndex
      · simp [hc]
      · simp [hc] at he

/-- Witness for C1: with an always-failing store the first persistence step
(creating the Batch row for the one perfect match) fails and the store is
returned unchanged. -/
theorem claimC1_witness :
    processReconciliationWithData (fun _ => true) "REC-W" [perfectBank1]
        [perfectEntry1] emptyStore =
      (Except.error "failed to create reconciliation batch", emptyStore) :=
  (claimC1_persist_failure_rolls_back (fun _ => true) "REC-W" [perfectBank1]
      [perfectEntry1] emptyStore).1
    "failed to create reconciliation batch" (by with_unfolding_all rfl)

/-! # C8 — a run whose accounting side is empty -/

theorem foldl_congr_id {α β : Type} (f : β → α → β) (h : ∀ b a, f b a = b) :
    ∀ (l : List α) (b : β), l.foldl f b = b := by
  intro l
  induction l with
  | nil => intro b; rfl
  | cons a l ih => intro b; rw [List.foldl_cons, h b a]; exact ih b

theorem pass1Step_nil (s : EngineState) (bt : BankTransaction) :
    pass1Step [] s bt = s := by
  simp [pass1Step, pass1Find]

theorem findOneToManyMatch_nil (bt : BankTransaction) (proc : List ℤ) :
    findOneToManyMatch bt proc [] = none := by
  simp [findOneToManyMatch, findPossibleEntryCombinations, candidatesFor,
    findCombinations, otmLoop]

theorem pass2Step_nil (s : EngineState) (bt : BankTransaction) :
    pass2Step [] s bt = s := by
  simp [pass2Step, findOneToManyMatch_nil]

theorem pass3Step_nil (s : EngineState) (bt : BankTransaction) :
    pass3Step [] s bt = s := by
  simp [pass3Step, pass3Best]

/-- With no accounting entries, all three passes leave the engine state
untouched: no proposal is emitted. -/
theorem processMatches_nil_aes (bts : List BankTransaction) :
    processMatches bts [] = [] := by
  simp only [processMatches, processMatchesState]
  rw [foldl_congr_id (pass3Step []) pass3Step_nil,
    foldl_congr_id (pass2Step []) pass2Step_nil,
    foldl_congr_id (pass1Step []) pass1Step_nil]

/-- Committing a transaction with no buffered writes is a no-op. -/
theorem commitTx_beginTx (store : Store) :
    commitTx store (beginTx store) = store := by
  simp [commitTx, beginTx]

/-- C8 (corrected). For a run with an empty accounting side — in particular
the spec's scenario S5, one unreconciled bank transaction and no accounting
entries — the engine emits zero proposals, but contrary to the claim the
service creates **no** Batch row at all (rows are created per match and per
*unmatched accounting entry* only; unmatched bank transactions produce
nothing), the commit is a no-op leaving the store unchanged, the response
status is `"matches"`, and the response's unmatched list is empty: the bank
transaction id is **not** reported.  Only `summary.unmatched` counts it. -/
theorem claimC8_empty_accounting_run (batchKey : String)
    (bts : List BankTransaction) (store : Store) :
    processReconciliationWithData neverFail batchKey bts [] store =
      (Except.ok
        { batchId := batchKey, status := "matches", matchResults := [],
          unmatched := [],
          summary :=
            { totalProcessed := bts.length, matched := 0,
              unmatched := bts.length, disputed := 0 } }, store) := by
  have hms : processMatches bts [] = [] := processMatches_nil_aes bts
  simp [processReconciliationWithData, runBatchTx, hms, persistMatches,
    persistUnmatched, neverFail, commitTx_beginTx, claimedBankIds,
    claimedAccountingIds]

/-- C8 counterexample at the spec's concrete scenario S5: zero proposals as
claimed, but no Batch row is committed (so none with status `unmatched_bank`)
and the report's unmatched list is empty instead of listing bank id 1. -/
theorem claimC8_counterexample_no_batch_row :
    processMatches [c8Bank] [] = [] ∧
    ((processReconciliationWithData neverFail "REC-1" [c8Bank] []
        emptyStore).2).reconciliations = [] ∧
    (processReconciliationWithData neverFail "REC-1" [c8Bank] []
        emptyStore).1 =
      Except.ok
        { batchId := "REC-1", status := "matches", matchResults := [],
          unmatched := [],
          summary :=
            { totalProcessed := 1, matched := 0, unmatched := 1,
              disputed := 0 } } :=
  ⟨rfl, rfl, rfl⟩

/-! # C2 — one Batch row per match (not one per run) -/

theorem txCreateMapping_never (tx : Tx) (m : ReconciliationMapping) :
    ∃ tx', txCreateMapping neverFail tx m = Except.ok tx' ∧
      tx'.pendingRecs = tx.pendingRecs :=
  ⟨_, rfl, rfl⟩

theorem txCreateAuditEntry_never (tx : Tx) (a : ReconciliationAudit) :
    ∃ tx', txCreateAuditEntry neverFail tx a = Except.ok tx' ∧
      tx'.pendingRecs = tx.pendingRecs :=
  ⟨_, rfl, rfl⟩

theorem txCreateReconciliation_never (tx : Tx) (r : Reconciliation) :
    ∃ r' tx', txCreateReconciliation neverFail tx r = Except.ok (r', tx') ∧
      tx'.pendingRecs = tx.pendingRecs ++ [r'] ∧ recView r' = recView r :=
  ⟨_, _, rfl, rfl, rfl⟩

theorem createMappingsFor_never (recId btId : ℤ) (mtype : String) :
    ∀ (entries : List AccountingEntry) (tx : Tx), ∃ tx',
      createMappingsFor neverFail recId btId mtype entries tx = Except.ok tx' ∧
      tx'.pendingRecs = tx.pendingRecs := by
  intro entries
  induction entries with
  | nil => intro tx; exact ⟨tx, rfl, rfl⟩
  | cons a l ih =>
    intro tx
    obtain ⟨tx1, h1, e1⟩ := txCreateMapping_never tx
      { id := 0, reconciliationId := recId, bankTransactionId := some btId,
        accountingEntryId := some a.id, mappingType := mtype }
    obtain ⟨tx', h', e'⟩ := ih tx1
    exact ⟨tx', by simp only [createMappingsFor, h1, h'], by rw [e', e1]⟩

theorem persistMatch_never (bk : String) (m : MatchResult) (tx : Tx) :
    ∃ tx', persistMatch neverFail bk m tx = Except.ok tx' ∧
      tx'.pendingRecs.map recView = tx.pendingRecs.map recView ++
        [("matched", m.confidence, m.amountDifference)] := by
  obtain ⟨r1, tx1, h1, e1, v1⟩ := txCreateReconciliation_never tx
    { id := 0, batchId := bk, status := "matched",
      matchConfidence := m.confidence, amountDifference := m.amountDifference }
  by_cases ht : m.type = MappingOneToOne
  · obtain ⟨tx2, h2, e2⟩ := txCreateMapping_never tx1
      { id := 0, reconciliationId := r1.id,
        bankTransactionId := some m.bankTransaction.id,
        accountingEntryId := some ((m.accountingEntries.headI).id),
        mappingType := m.type }
    obtain ⟨tx3, h3, e3⟩ := txCreateAuditEntry_never tx2
      { id := 0, reconciliationId := r1.id, action := AuditActionMatched,
        details := AuditDetails.matched m.type m.confidence m.matchCriteria,
        userId := "" }
    refine ⟨tx3, ?_, ?_⟩
    · simp only [persistMatch, h1, if_pos ht, h2, h3]
    · rw [e3, e2, e1]
      simp only [List.map_append, List.map_cons, List.map_nil, v1]
      rfl
  · obtain ⟨tx2, h2, e2⟩ := createMappingsFor_never r1.id m.bankTransaction.id
      m.type m.accountingEntries tx1
    obtain ⟨tx3, h3, e3⟩ := txCreateAuditEntry_never tx2
      { id := 0, reconciliationId := r1.id, action := AuditActionMatched,
        details := AuditDetails.matched m.type m.confidence m.matchCriteria,
        userId := "" }
    refine ⟨tx3, ?_, ?_⟩
    · simp only [persistMatch, h1, if_neg ht, h2, h3]
    · rw [e3, e2, e1]
      simp only [List.map_append, List.map_cons, List.map_nil, v1]
      rfl

theorem persistMatches_never (bk : String) :
    ∀ (ms : List MatchResult) (tx : Tx), ∃ tx',
      persistMatches neverFail bk ms tx = Except.ok tx' ∧
      tx'.pendingRecs.map recView = tx.pendingRecs.map recView ++
        ms.map (fun m => ("matched", m.confidence, m.amountDifference)) := by
  intro ms
  induction ms with
  | nil => intro tx; exact ⟨tx, rfl, by simp⟩
  | cons m l ih =>
    intro tx
    obtain ⟨tx1, h1, v1⟩ := persistMatch_never bk m tx
    obtain ⟨tx', h', v'⟩ := ih tx1
    refine ⟨tx', by simp only [persistMatches, h1, h'], ?_⟩
    rw [v', v1]
    simp

theorem persistUnmatched_never (bk : String) (bts : List BankTransaction) :
    ∀ (uas : List AccountingEntry) (um0 : List UnmatchResult) (tx : Tx),
      ∃ um tx',
        persistUnmatched neverFail bk bts uas um0 tx = Except.ok (um, tx') ∧
        tx'.pendingRecs.map recView = tx.pendingRecs.map recView ++
          uas.map (fun _ => ("unmatched", (0 : ℚ), (0 : ℚ))) := by
  intro uas
  induction uas with
  | nil => intro um0 tx; exact ⟨um0, tx, rfl, by simp⟩
  | cons ua l ih =>
    intro um0 tx
    obtain ⟨r1, tx1, h1, e1, v1⟩ := txCreateReconciliation_never tx
      { id := 0, batchId := bk, status := "unmatched", matchConfidence := 0,
        amountDifference := 0 }
    obtain ⟨tx2, h2, e2⟩ := txCreateAuditEntry_never tx1
      { id := 0, reconciliationId := r1.id, action := AuditActionUnmatched,
        details := AuditDetails.unmatched (lastMatchingTrId bts ua.invoiceNumber)
          [ua.entryId],
        userId := "" }
    obtain ⟨um, tx', h', v'⟩ := ih
      (um0 ++ [{ bankTransactions := lastMatchingTrId bts ua.invoiceNumber,
                 accountingEntries := [ua.entryId] }]) tx2
    refine ⟨um, tx', by simp only [persistUnmatched, h1, h2, h'], ?_⟩
    rw [v', e2, e1]
    simp only [List.map_append, List.map_cons, List.map_nil, v1,
      List.append_assoc, List.cons_append, List.nil_append]
    rfl

/-- C2 (corrected). A `startBatch` run does **not** create a single Batch row
with averaged confidence and summed amount difference: it creates one Batch
row **per emitted proposal**, each with status `matched` and that proposal's
own confidence and amount difference, followed by one Batch row with status
`unmatched` (confidence 0, difference 0) per unmatched accounting entry. -/
theorem claimC2_batch_row_per_match (batchKey : String)
    (bts : List BankTransaction) (aes : List AccountingEntry) (store : Store) :
    ((processReconciliationWithData neverFail batchKey bts aes
        store).2).reconciliations.map recView =
      store.reconciliations.map recView ++
      (processMatches bts aes).map
        (fun m => ("matched", m.confidence, m.amountDifference)) ++
      (aes.filter
        (fun ae => ae.id ∉ claimedAccountingIds (processMatches bts aes))).map
        (fun _ => ("unmatched", (0 : ℚ), (0 : ℚ))) := by
  obtain ⟨tx1, h1, v1⟩ :=
    persistMatches_never batchKey (processMatches bts aes) (beginTx store)
  obtain ⟨um, tx2, h2, v2⟩ := persistUnmatched_never batchKey bts
    (aes.filter
      (fun ae => ae.id ∉ claimedAccountingIds (processMatches bts aes)))
    [] tx1
  simp only [processReconciliationWithData, runBatchTx, h1, h2, neverFail,
    Bool.false_eq_true, if_false, commitTx]
  rw [List.map_append, v2, v1]
  simp [beginTx, List.append_assoc]

/-- C2 counterexample: a run with two perfect matches commits **two** Batch
rows, not the single row the claim asserts. -/
theorem claimC2_counterexample_two_batch_rows :
    ((processReconciliationWithData neverFail "REC-1"
        [perfectBank1, perfectBank2] [perfectEntry1, perfectEntry2]
        emptyStore).2).reconciliations.length = 2 := by
  with_unfolding_all decide

/-! # C7 — which combination the fan-out search selects -/

theorem findCombinations_zero (candidates : List AccountingEntry)
    (targetAmount : ℚ) (current : List AccountingEntry)
    (result : List (List AccountingEntry)) :
    findCombinations candidates 0 targetAmount current result =
      if |targetAmount - entriesSum current| ≤
          targetAmount * AmountTolerancePercent then
        result ++ [current]
      else result := by
  cases candidates <;> rfl

/-- Everything `findCombinations` adds to the accumulator is `current`
extended by a size-`size` sublist of the candidates, and its sum is within
the amount tolerance of the target. -/
theorem mem_findCombinations (targetAmount : ℚ) :
    ∀ (candidates : List AccountingEntry) (size : Nat)
      (current : List AccountingEntry) (result : List (List AccountingEntry))
      (l : List AccountingEntry),
      l ∈ findCombinations candidates size targetAmount current result →
      l ∈ result ∨ ∃ t, t.Sublist candidates ∧ t.length = size ∧
        l = current ++ t ∧
        |targetAmount - entriesSum l| ≤ targetAmount * AmountTolerancePercent := by
  intro candidates
  induction candidates with
  | nil =>
    intro size current result l h
    match size with
    | 0 =>
      rw [findCombinations_zero] at h
      split at h
      case isTrue hfeas =>
        rcases List.mem_append.mp h with hr | hc
        · exact Or.inl hr
        · rw [List.mem_singleton] at hc
          subst hc
          exact Or.inr ⟨[], List.nil_sublist _, rfl, by simp, hfeas⟩
      case isFalse => exact Or.inl h
    | sz + 1 => exact Or.inl h
  | cons c rest ih =>
    intro size current result l h
    match size with
    | 0 =>
      rw [findCombinations_zero] at h
      split at h
      case isTrue hfeas =>
        rcases List.mem_append.mp h with hr | hc
        · exact Or.inl hr
        · rw [List.mem_singleton] at hc
          subst hc
          exact Or.inr ⟨[], List.nil_sublist _, rfl, by simp, hfeas⟩
      case isFalse => exact Or.inl h
    | sz + 1 =>
      simp only [findCombinations] at h
      split at h
      case isTrue => exact Or.inl h
      case isFalse hlen =>
        rcases ih (sz + 1) current
          (findCombinations rest sz targetAmount (current ++ [c]) result) l h
          with hr1 | ⟨t, hsub, hlenT, heq, hfeas⟩
        · rcases ih sz (current ++ [c]) result l hr1
            with hr | ⟨t, hsub, hlenT, heq, hfeas⟩
          · exact Or.inl hr
          · refine Or.inr ⟨c :: t, List.Sublist.cons₂ c hsub, by simp [hlenT],
              ?_, hfeas⟩
            rw [heq, List.append_assoc]
            rfl
        · exact Or.inr ⟨t, List.Sublist.cons c hsub, hlenT, heq, hfeas⟩

/-- Every combination the fan-out search enumerates is a sublist of the
candidate list of size 1–3 whose sum is within tolerance of the target. -/
theorem mem_findPossibleEntryCombinations {bt : BankTransaction}
    {targetAmount : ℚ} {proc : List ℤ} {aes : List AccountingEntry}
    {l : List AccountingEntry}
    (h : l ∈ findPossibleEntryCombinations bt targetAmount proc aes) :
    l.Sublist (candidatesFor bt targetAmount proc aes) ∧
    1 ≤ l.length ∧ l.length ≤ 3 ∧
    |targetAmount - entriesSum l| ≤ targetAmount * AmountTolerancePercent := by
  simp only [findPossibleEntryCombinations] at h
  rcases mem_findCombinations targetAmount _ 3 [] _ l h
    with h2 | ⟨t, hsub, hlen, heq, hfeas⟩
  · rcases mem_findCombinations targetAmount _ 2 [] _ l h2
      with h1 | ⟨t, hsub, hlen, heq, hfeas⟩
    · rcases mem_findCombinations targetAmount _ 1 [] _ l h1
        with h0 | ⟨t, hsub, hlen, heq, hfeas⟩
      · exact absurd h0 (List.not_mem_nil l)
      · rw [List.nil_append] at heq
        subst heq
        exact ⟨hsub, by omega, by omega, hfeas⟩
    · rw [List.nil_append] at heq
      subst heq
      exact ⟨hsub, by omega, by omega, hfeas⟩
  · rw [List.nil_append] at heq
    subst heq
    exact ⟨hsub, by omega, by omega, hfeas⟩

/-- Every feasible combination clears the `MEDIUM` acceptance bar: the base
0.7 plus the guaranteed amount contribution already reaches 0.8, every other
contribution is non-negative, and the clamp value 0.95 is above 0.8. -/
theorem medium_le_calculateOneToManyConfidence (bt : BankTransaction)
    (entries : List AccountingEntry) (amountDiff : ℚ)
    (h : amountDiff ≤ bt.amount * AmountTolerancePercent) :
    MediumMatchConfidence ≤ calculateOneToManyConfidence bt entries amountDiff := by
  simp only [calculateOneToManyConfidence]
  split_ifs <;>
    first
    | (norm_num [MediumMatchConfidence, HighMatchConfidence]; done)
    | (exact absurd h (by assumption))
    | (refine le_add_of_le_of_nonneg
        (by norm_num [MediumMatchConfidence]; done) (by positivity))

theorem otmLoop_nil (bt : BankTransaction) (acc : ℚ × Option MatchResult) :
    otmLoop bt [] acc = acc := rfl

/-- The selection loop of `findOneToManyMatch`, specified: it returns the
running minimum of the feasible differences, and its best match (when it
changed at all) is built from the **first** enumerated combination attaining
that minimum — strictly earlier combinations have strictly larger
differences, and no combination beats it. -/
theorem otmLoop_spec (bt : BankTransaction) :
    ∀ (cs : List (List AccountingEntry)) (m : ℚ) (b : Option MatchResult),
      (∀ l ∈ cs, diffOf bt l ≤ bt.amount * AmountTolerancePercent) →
      ((otmLoop bt cs (m, b)).1 ≤ m ∧
        ∀ l ∈ cs, (otmLoop bt cs (m, b)).1 ≤ diffOf bt l) ∧
      (((otmLoop bt cs (m, b)).1 = m ∧ (otmLoop bt cs (m, b)).2 = b) ∨
        ∃ l1 entries l2, cs = l1 ++ entries :: l2 ∧
          (otmLoop bt cs (m, b)).2 =
            some (mkOneToMany bt entries (diffOf bt entries)
              (calculateOneToManyConfidence bt entries (diffOf bt entries))) ∧
          (otmLoop bt cs (m, b)).1 = diffOf bt entries ∧
          diffOf bt entries < m ∧
          ∀ x ∈ l1, diffOf bt entries < diffOf bt x) := by
  intro cs
  induction cs with
  | nil =>
    intro m b hfeas
    exact ⟨⟨le_refl m, by simp⟩, Or.inl ⟨rfl, rfl⟩⟩
  | cons c rest ih =>
    intro m b hfeas
    have hcfeas : diffOf bt c ≤ bt.amount * AmountTolerancePercent :=
      hfeas c (List.mem_cons_self c rest)
    have hrest : ∀ l ∈ rest, diffOf bt l ≤ bt.amount * AmountTolerancePercent :=
      fun l hl => hfeas l (List.mem_cons_of_mem c hl)
    by_cases hlt : |bt.amount - entriesSum c| < m
    · have hconf := medium_le_calculateOneToManyConfidence bt c
        (|bt.amount - entriesSum c|) hcfeas
      have hstep : otmLoop bt (c :: rest) (m, b) =
          otmLoop bt rest (|bt.amount - entriesSum c|,
            some (mkOneToMany bt c (|bt.amount - entriesSum c|)
              (calculateOneToManyConfidence bt c (|bt.amount - entriesSum c|)))) := by
        simp only [otmLoop, if_pos hlt, if_pos hconf]
      rw [hstep]
      obtain ⟨⟨hle, hall⟩, hcase⟩ := ih (|bt.amount - entriesSum c|) _ hrest
      have hled : (otmLoop bt rest (|bt.amount - entriesSum c|, _)).1 ≤
          diffOf bt c := hle
      refine ⟨⟨hle.trans (le_of_lt hlt), fun l hl => ?_⟩, ?_⟩
      · rcases List.mem_cons.mp hl with rfl | hl
        · exact hled
        · exact hall l hl
      · rcases hcase with ⟨h1, h2⟩ | ⟨l1, e, l2, hsplit, hb2, hm2, hlt2, hbefore⟩
        · exact Or.inr ⟨[], c, rest, rfl, h2, h1, hlt, by simp⟩
        · refine Or.inr ⟨c :: l1, e, l2, by rw [hsplit]; rfl, hb2, hm2,
            lt_trans hlt2 hlt, fun x hx => ?_⟩
          rcases List.mem_cons.mp hx with rfl | hx
          · exact hlt2
          · exact hbefore x hx
    · have hstep : otmLoop bt (c :: rest) (m, b) = otmLoop bt rest (m, b) := by
        simp only [otmLoop, if_neg hlt]
      rw [hstep]
      obtain ⟨⟨hle, hall⟩, hcase⟩ := ih m b hrest
      refine ⟨⟨hle, fun l hl => ?_⟩, ?_⟩
      · rcases List.mem_cons.mp hl with rfl | hl
        · exact hle.trans (not_lt.mp hlt)
        · exact hall l hl
      · rcases hcase with ⟨h1, h2⟩ | ⟨l1, e, l2, hsplit, hb2, hm2, hlt2, hbefore⟩
        · exact Or.inl ⟨h1, h2⟩
        · refine Or.inr ⟨c :: l1, e, l2, by rw [hsplit]; rfl, hb2, hm2, hlt2,
            fun x hx => ?_⟩
          rcases List.mem_cons.mp hx with rfl | hx
          · exact lt_of_lt_of_le hlt2 (not_lt.mp hlt)
          · exact hbefore x hx

/-- C7 (corrected). When the fan-out search emits a proposal, its entry set is
a feasible enumerated combination whose `|Σ − b.amount|` is **minimal over all
enumerated combinations** and strictly below `b.amount`, and it is the **first**
combination in enumeration order attaining that minimum.  Enumeration order is
subset size 1, then 2, then 3 (so the smaller-size tie-break of the claim does
hold), but within a size the order is the candidate-list order — the reverse of
the input order of the reference-matching entries — **not** the lexicographic
order of entry ids the claim asserts. -/
theorem claimC7_minimal_difference_selection (bt : BankTransaction)
    (proc : List ℤ) (aes : List AccountingEntry) (r : MatchResult)
    (h : findOneToManyMatch bt proc aes = some r) :
    ∃ l1 l2,
      findPossibleEntryCombinations bt bt.amount proc aes =
        l1 ++ r.accountingEntries :: l2 ∧
      r.amountDifference = |bt.amount - entriesSum r.accountingEntries| ∧
      r.amountDifference < bt.amount ∧
      (∀ l ∈ l1, r.amountDifference < |bt.amount - entriesSum l|) ∧
      (∀ l ∈ findPossibleEntryCombinations bt bt.amount proc aes,
        r.amountDifference ≤ |bt.amount - entriesSum l|) := by
  have hfeas : ∀ l ∈ findPossibleEntryCombinations bt bt.amount proc aes,
      diffOf bt l ≤ bt.amount * AmountTolerancePercent :=
    fun l hl => (mem_findPossibleEntryCombinations hl).2.2.2
  have hspec := otmLoop_spec bt
    (findPossibleEntryCombinations bt bt.amount proc aes) bt.amount none hfeas
  unfold findOneToManyMatch at h
  rcases hspec.2 with ⟨_, hnone⟩ | ⟨l1, e, l2, hsplit, hb, hm, hlt, hbefore⟩
  · rw [hnone] at h
    exact Option.noConfusion h
  · rw [hb] at h
    injection h with h
    subst h
    refine ⟨l1, l2, hsplit, rfl, hlt, ?_, ?_⟩
    · intro l hl
      exact hbefore l hl
    · intro l hl
      have := hspec.1.2 l hl
      rw [hm] at this
      exact this

/-- C7 counterexample to the claimed lexicographic tie-break: both singleton
combinations `[c7EntryA]` (ids `[1]`) and `[c7EntryB]` (ids `[2]`) are
feasible with the same difference 0, yet the emitted proposal references id 2
— the candidate list is built by prepending, so the later input entry is
enumerated first and wins the tie, not the lexicographically smaller id. -/
theorem claimC7_counterexample_tie_break :
    (findOneToManyMatch c7Bank [] [c7EntryA, c7EntryB]).map
        (fun r => r.accountingEntries.map (fun ae => ae.id)) = some [2] ∧
    |c7Bank.amount - entriesSum [c7EntryA]| = 0 ∧
    |c7Bank.amount - entriesSum [c7EntryB]| = 0 ∧
    [c7EntryA] ∈ findPossibleEntryCombinations c7Bank c7Bank.amount []
      [c7EntryA, c7EntryB] := by
  with_unfolding_all decide

/-- Witness for C7: the amended selection property instantiated at the
concrete tie-break input. -/
theorem claimC7_witness :
    ∃ r, findOneToManyMatch c7Bank [] [c7EntryA, c7EntryB] = some r ∧
      ∃ l1 l2,
        findPossibleEntryCombinations c7Bank c7Bank.amount [] [c7EntryA, c7EntryB] =
          l1 ++ r.accountingEntries :: l2 ∧
        r.amountDifference = |c7Bank.amount - entriesSum r.accountingEntries| ∧
        r.amountDifference < c7Bank.amount ∧
        (∀ l ∈ l1, r.amountDifference < |c7Bank.amount - entriesSum l|) ∧
        (∀ l ∈ findPossibleEntryCombinations c7Bank c7Bank.amount []
            [c7EntryA, c7EntryB],
          r.amountDifference ≤ |c7Bank.amount - entriesSum l|) := by
  refine ⟨_, (by with_unfolding_all rfl :
    findOneToManyMatch c7Bank [] [c7EntryA, c7EntryB] = some _), ?_⟩
  exact claimC7_minimal_difference_selection c7Bank [] [c7EntryA, c7EntryB] _
    (by with_unfolding_all rfl)

/-! # Engine invariant (C4, C5, C10) -/

theorem resultSane_of_check {bt : BankTransaction} {ae : AccountingEntry}
    {r : MatchResult} (h : checkOneToOneMatch bt ae = some r) : ResultSane r := by
  obtain ⟨hbt, hty, hentries, hdiff, hgate⟩ := checkOneToOneMatch_shape h
  refine ⟨fun _ => ⟨bt, ae, hentries, h⟩, ?_, ?_, ?_, ?_⟩
  · rw [hdiff]
    exact abs_nonneg _
  · intro hpos
    rw [hbt] at hpos ⊢
    rcases hgate with h0 | htol
    · rw [hdiff, h0]
      exact mul_nonneg hpos (by norm_num [AmountTolerancePercent])
    · rw [hdiff]
      exact htol
  · rw [hentries]
    simp
  · rw [hentries]
    simp

theorem pass1Find_spec {bt : BankTransaction} {usedA : List ℤ} :
    ∀ {aes : List AccountingEntry} {r : MatchResult} {ae : AccountingEntry},
      pass1Find bt usedA aes = some (r, ae) →
      ae ∈ aes ∧ ae.id ∉ usedA ∧ checkOneToOneMatch bt ae = some r := by
  intro aes
  induction aes with
  | nil => intro r ae h; exact absurd h (by simp [pass1Find])
  | cons a rest ih =>
    intro r ae h
    rw [pass1Find] at h
    split at h
    · obtain ⟨h1, h2, h3⟩ := ih h
      exact ⟨List.mem_cons_of_mem a h1, h2, h3⟩
    case isFalse hnot =>
      split at h
      case h_1 r' heq =>
        split at h
        case isTrue hperf =>
          injection h with h
          injection h with hr hae
          subst hr
          subst hae
          exact ⟨List.mem_cons_self a rest, hnot, heq⟩
        case isFalse =>
          obtain ⟨h1, h2, h3⟩ := ih h
          exact ⟨List.mem_cons_of_mem a h1, h2, h3⟩
      case h_2 =>
        obtain ⟨h1, h2, h3⟩ := ih h
        exact ⟨List.mem_cons_of_mem a h1, h2, h3⟩

theorem pass3Best_spec {bt : BankTransaction} {usedA : List ℤ} :
    ∀ {aes : List AccountingEntry} {acc : Option MatchResult × ℚ}
      {r : MatchResult},
      (pass3Best bt usedA aes acc).1 = some r →
      acc.1 = some r ∨
        ∃ ae ∈ aes, ae.id ∉ usedA ∧ checkOneToOneMatch bt ae = some r := by
  intro aes
  induction aes with
  | nil => intro acc r h; exact Or.inl h
  | cons a rest ih =>
    intro acc r h
    rw [pass3Best] at h
    split at h
    · rcases ih h with h' | ⟨ae, hmem, h2, h3⟩
      · exact Or.inl h'
      · exact Or.inr ⟨ae, List.mem_cons_of_mem a hmem, h2, h3⟩
    case isFalse hnot =>
      split at h
      case h_1 r' heq =>
        split at h
        case isTrue =>
          rcases ih h with h' | ⟨ae, hmem, h2, h3⟩
          · injection h' with h'
            subst h'
            exact Or.inr ⟨a, List.mem_cons_self a rest, hnot, heq⟩
          · exact Or.inr ⟨ae, List.mem_cons_of_mem a hmem, h2, h3⟩
        case isFalse =>
          rcases ih h with h' | ⟨ae, hmem, h2, h3⟩
          · exact Or.inl h'
          · exact Or.inr ⟨ae, List.mem_cons_of_mem a hmem, h2, h3⟩
      case h_2 =>
        rcases ih h with h' | ⟨ae, hmem, h2, h3⟩
        · exact Or.inl h'
        · exact Or.inr ⟨ae, List.mem_cons_of_mem a hmem, h2, h3⟩

/-- What a successful fan-out search guarantees about its proposal. -/
theorem findOneToManyMatch_shape {bt : BankTransaction} {proc : List ℤ}
    {aes : List AccountingEntry} {r : MatchResult}
    (h : findOneToManyMatch bt proc aes = some r) :
    r.type = MappingOneToMany ∧ r.bankTransaction = bt ∧
    0 ≤ r.amountDifference ∧
    r.amountDifference ≤ bt.amount * AmountTolerancePercent ∧
    1 ≤ r.accountingEntries.length ∧ r.accountingEntries.length ≤ 3 ∧
    ∀ a ∈ r.accountingEntries, a ∈ aes ∧ a.id ∉ proc := by
  have hfeas : ∀ l ∈ findPossibleEntryCombinations bt bt.amount proc aes,
      diffOf bt l ≤ bt.amount * AmountTolerancePercent :=
    fun l hl => (mem_findPossibleEntryCombinations hl).2.2.2
  have hspec := otmLoop_spec bt
    (findPossibleEntryCombinations bt bt.amount proc aes) bt.amount none hfeas
  unfold findOneToManyMatch at h
  rcases hspec.2 with ⟨_, hnone⟩ | ⟨l1, e, l2, hsplit, hb, _, _, _⟩
  · rw [hnone] at h
    exact Option.noConfusion h
  · rw [hb] at h
    injection h with h
    subst h
    have hmem : e ∈ findPossibleEntryCombinations bt bt.amount proc aes := by
      rw [hsplit]
      exact List.mem_append_right _ (List.mem_cons_self e l2)
    obtain ⟨hsub, hlen1, hlen3, hfeasE⟩ := mem_findPossibleEntryCombinations hmem
    refine ⟨rfl, rfl, abs_nonneg _, hfeasE, hlen1, hlen3, ?_⟩
    intro a ha
    have hcand : a ∈ candidatesFor bt bt.amount proc aes := hsub.subset ha
    obtain ⟨hmem', hnot, _, _, _, _⟩ := mem_candidatesFor hcand
    exact ⟨hmem', hnot⟩

/-- Appending a fresh proposal — bank id not yet claimed, entry ids not yet
claimed, sane — preserves the invariant. -/
theorem engineInv_append (s : EngineState) (r : MatchResult)
    (btId : ℤ) (newA : List ℤ) (hinv : EngineInv s)
    (hbtEq : r.bankTransaction.id = btId) (hbtNew : btId ∉ s.usedB)
    (haCover : ∀ a ∈ r.accountingEntries, a.id ∈ newA)
    (haNew : ∀ a ∈ r.accountingEntries, a.id ∉ s.usedA)
    (hsane : ResultSane r) :
    EngineInv ⟨s.results ++ [r], s.usedB ++ [btId], s.usedA ++ newA⟩ := by
  obtain ⟨hcont, hpw, hall⟩ := hinv
  refine ⟨?_, ?_, ?_⟩
  · intro r' hr'
    rcases List.mem_append.mp hr' with hold | hnew
    · obtain ⟨hb, ha⟩ := hcont r' hold
      exact ⟨List.mem_append_left _ hb,
        fun a haa => List.mem_append_left _ (ha a haa)⟩
    · rw [List.mem_singleton] at hnew
      subst hnew
      refine ⟨?_, fun a haa => List.mem_append_right _ (haCover a haa)⟩
      rw [hbtEq]
      exact List.mem_append_right _ (List.mem_singleton.mpr rfl)
  · refine List.pairwise_append.mpr ⟨hpw, List.pairwise_singleton _ _,
      fun x hx y hy => ?_⟩
    rw [List.mem_singleton] at hy
    subst hy
    obtain ⟨hbx, hax⟩ := hcont x hx
    constructor
    · intro hcontra
      rw [hcontra, hbtEq] at hbx
      exact hbtNew hbx
    · intro a ha b hb hcontra
      have hbA := haNew b hb
      rw [← hcontra] at hbA
      exact hbA (hax a ha)
  · intro r' hr'
    rcases List.mem_append.mp hr' with hold | hnew
    · exact hall r' hold
    · rw [List.mem_singleton] at hnew
      subst hnew
      exact hsane

theorem engineInv_pass1Step (aes : List AccountingEntry) (s : EngineState)
    (bt : BankTransaction) (hinv : EngineInv s) :
    EngineInv (pass1Step aes s bt) := by
  unfold pass1Step
  split
  · exact hinv
  case isFalse hguard =>
    rcases hfind : pass1Find bt s.usedA aes with _ | ⟨r, ae⟩
    · exact hinv
    · obtain ⟨hmem, hnotused, hcheck⟩ := pass1Find_spec hfind
      obtain ⟨hbt, hty, hentries, _, _⟩ := checkOneToOneMatch_shape hcheck
      refine engineInv_append s r bt.id [ae.id] hinv (by rw [hbt]) hguard
        ?_ ?_ (resultSane_of_check hcheck)
      · intro a ha
        rw [hentries, List.mem_singleton] at ha
        subst ha
        exact List.mem_singleton.mpr rfl
      · intro a ha
        rw [hentries, List.mem_singleton] at ha
        subst ha
        exact hnotused

theorem engineInv_pass2Step (aes : List AccountingEntry) (s : EngineState)
    (bt : BankTransaction) (hinv : EngineInv s) :
    EngineInv (pass2Step aes s bt) := by
  unfold pass2Step
  split
  · exact hinv
  case isFalse hguard =>
    rcases hfind : findOneToManyMatch bt s.usedA aes with _ | r
    · exact hinv
    · obtain ⟨hty, hbt, hd0, hdtol, hlen1, hlen3, hids⟩ :=
        findOneToManyMatch_shape hfind
      refine engineInv_append s r bt.id
        (r.accountingEntries.map (fun ae => ae.id)) hinv (by rw [hbt]) hguard
        ?_ ?_ ?_
      · intro a ha
        exact List.mem_map.mpr ⟨a, ha, rfl⟩
      · intro a ha
        exact (hids a ha).2
      · refine ⟨fun hcontra => ?_, hd0, fun _ => by rw [hbt]; exact hdtol,
          hlen1, hlen3⟩
        rw [hty] at hcontra
        exact absurd hcontra (by decide)

theorem engineInv_pass3Step (aes : List AccountingEntry) (s : EngineState)
    (bt : BankTransaction) (hinv : EngineInv s) :
    EngineInv (pass3Step aes s bt) := by
  unfold pass3Step
  split
  · exact hinv
  case isFalse hguard =>
    split
    next r hfind =>
      split
      next hconf =>
        rcases pass3Best_spec hfind with hnone | ⟨ae, _, hnotused, hcheck⟩
        · exact Option.noConfusion hnone
        · obtain ⟨hbt, hty, hentries, _, _⟩ := checkOneToOneMatch_shape hcheck
          refine engineInv_append s r bt.id [(r.accountingEntries.headI).id]
            hinv (by rw [hbt]) hguard ?_ ?_ (resultSane_of_check hcheck)
          · intro a ha
            rw [hentries] at ha ⊢
            rw [List.mem_singleton] at ha
            subst ha
            simp
          · intro a ha
            rw [hentries, List.mem_singleton] at ha
            subst ha
            exact hnotused
      next hconf => exact hinv
    next hfind => exact hinv

theorem engineInv_foldl (step : EngineState → BankTransaction → EngineState)
    (hstep : ∀ s bt, EngineInv s → EngineInv (step s bt)) :
    ∀ (bts : List BankTransaction) (s : EngineState),
      EngineInv s → EngineInv (bts.foldl step s) := by
  intro bts
  induction bts with
  | nil => intro s hs; exact hs
  | cons bt rest ih =>
    intro s hs
    rw [List.foldl_cons]
    exact ih (step s bt) (hstep s bt hs)

/-- The master invariant of the engine's final state. -/
theorem processMatches_engineInv (bts : List BankTransaction)
    (aes : List AccountingEntry) : EngineInv (processMatchesState bts aes) := by
  unfold processMatchesState
  refine engineInv_foldl (pass3Step aes) (engineInv_pass3Step aes) bts _ ?_
  refine engineInv_foldl (pass2Step aes) (engineInv_pass2Step aes) bts _ ?_
  refine engineInv_foldl (pass1Step aes) (engineInv_pass1Step aes) bts _ ?_
  exact ⟨by simp, List.Pairwise.nil, by simp⟩

/-- C4 (confirmed). For inputs whose bank ids and accounting ids are each
pairwise distinct, the proposal list of `ProcessMatches` is claim-disjoint:
no bank id appears in two proposals, and no accounting id appears in two
proposals, counting every entry of a fan-out proposal.  (The claim-set guards
of the engine make this hold regardless; the distinctness hypotheses mirror
the claim as stated.) -/
theorem claimC4_claim_disjointness (bts : List BankTransaction)
    (aes : List AccountingEntry)
    (hB : (bts.map (fun bt => bt.id)).Nodup)
    (hA : (aes.map (fun ae => ae.id)).Nodup) :
    (processMatches bts aes).Pairwise
      (fun r s => r.bankTransaction.id ≠ s.bankTransaction.id ∧
        ∀ a ∈ r.accountingEntries, ∀ b ∈ s.accountingEntries, a.id ≠ b.id) :=
  (processMatches_engineInv bts aes).2.1

/-- Witness for C4 at a concrete two-by-two input with distinct ids. -/
theorem claimC4_witness :
    (processMatches [perfectBank1, perfectBank2]
        [perfectEntry1, perfectEntry2]).Pairwise
      (fun r s => r.bankTransaction.id ≠ s.bankTransaction.id ∧
        ∀ a ∈ r.accountingEntries, ∀ b ∈ s.accountingEntries, a.id ≠ b.id) :=
  claimC4_claim_disjointness [perfectBank1, perfectBank2]
    [perfectEntry1, perfectEntry2] (by decide) (by decide)

/-- C5 (confirmed). A pair whose reference fields are both non-empty and
unequal is vetoed: `checkOneToOneMatch` hard-resets the confidence to 0 and
returns `none` for the pair, and consequently `ProcessMatches` never emits a
one-to-one proposal pairing them (every emitted one-to-one proposal is a
successful `checkOneToOneMatch` result). -/
theorem claimC5_reference_veto (bt : BankTransaction) (ae : AccountingEntry)
    (h1 : bt.referenceNumber ≠ "") (h2 : ae.invoiceNumber ≠ "")
    (h3 : bt.referenceNumber ≠ ae.invoiceNumber) :
    checkOneToOneMatch bt ae = none ∧
    ∀ (bts : List BankTransaction) (aes : List AccountingEntry)
      (r : MatchResult),
      r ∈ processMatches bts aes → r.type = MappingOneToOne →
      ¬(r.bankTransaction = bt ∧ r.accountingEntries = [ae]) := by
  have hveto := checkOneToOneMatch_veto bt ae h1 h2 h3
  refine ⟨hveto, ?_⟩
  rintro bts aes r hr hty ⟨hrbt, hrae⟩
  obtain ⟨b', a', hentries, hcheck⟩ :=
    ((processMatches_engineInv bts aes).2.2 r hr).1 hty
  obtain ⟨hbt', _, hentries', _, _⟩ := checkOneToOneMatch_shape hcheck
  have hb : b' = bt := by rw [hbt'] at hrbt; exact hrbt
  have hae : a' = ae := by
    rw [hentries] at hrae
    injection hrae with hae _
  rw [hb, hae, hveto] at hcheck
  exact Option.noConfusion hcheck

/-- Witness for C5 at the spec's scenario S3 (equal amounts and dates,
references `INV1` versus `INV2`). -/
theorem claimC5_witness :
    checkOneToOneMatch ⟨3, "T3", "ACC", 100, "2024-01-10", "", "INV1"⟩
      ⟨30, "E30", "C", 100, "2024-01-10", "", "INV2"⟩ = none :=
  (claimC5_reference_veto ⟨3, "T3", "ACC", 100, "2024-01-10", "", "INV1"⟩
    ⟨30, "E30", "C", 100, "2024-01-10", "", "INV2"⟩
    (by decide) (by decide) (by decide)).1

/-- C10 (corrected). Every proposal of `ProcessMatches` has a non-negative
amount difference and references one to three accounting entries, exactly one
when its type is `one_to_one`; but the tolerance bound
`AmountDifference ≤ b.amount × 0.01` only holds **when `b.amount ≥ 0`** — a
zero difference passes the amount gate unconditionally, so a negative-amount
bank transaction can be matched even though the bound fails (the tolerance is
then negative). -/
theorem claimC10_proposal_bounds (bts : List BankTransaction)
    (aes : List AccountingEntry) (r : MatchResult)
    (hr : r ∈ processMatches bts aes) :
    0 ≤ r.amountDifference ∧
    (0 ≤ r.bankTransaction.amount →
      r.amountDifference ≤ r.bankTransaction.amount * AmountTolerancePercent) ∧
    1 ≤ r.accountingEntries.length ∧ r.accountingEntries.length ≤ 3 ∧
    (r.type = MappingOneToOne → r.accountingEntries.length = 1) := by
  have hs := (processMatches_engineInv bts aes).2.2 r hr
  refine ⟨hs.2.1, hs.2.2.1, hs.2.2.2.1, hs.2.2.2.2, fun hty => ?_⟩
  obtain ⟨b, a, hentries, _⟩ := hs.1 hty
  rw [hentries]
  rfl

/-- Witness for C10 at the one-perfect-pair input. -/
theorem claimC10_witness :
    0 ≤ (processMatches [perfectBank1] [perfectEntry1]).headI.amountDifference ∧
    (0 ≤ (processMatches [perfectBank1] [perfectEntry1]).headI.bankTransaction.amount →
      (processMatches [perfectBank1] [perfectEntry1]).headI.amountDifference ≤
        (processMatches [perfectBank1]
          [perfectEntry1]).headI.bankTransaction.amount *
          AmountTolerancePercent) ∧
    1 ≤ (processMatches [perfectBank1] [perfectEntry1]).headI.accountingEntries.length ∧
    (processMatches [perfectBank1] [perfectEntry1]).headI.accountingEntries.length ≤ 3 ∧
    ((processMatches [perfectBank1] [perfectEntry1]).headI.type = MappingOneToOne →
      (processMatches [perfectBank1] [perfectEntry1]).headI.accountingEntries.length = 1) :=
  claimC10_proposal_bounds [perfectBank1] [perfectEntry1] _
    (by with_unfolding_all decide)

/-- C10 counterexample: with a bank amount of −100 the pair still matches
perfectly (difference 0 passes the amount gate without consulting the
tolerance), yet `0 ≤ −100 × 0.01` is false, so the claimed bound
`AmountDifference ≤ b.amount × 0.01` fails on the emitted proposal. -/
theorem claimC10_counterexample_negative_amount :
    ∃ r ∈ processMatches [negBank] [negEntry],
      ¬(r.amountDifference ≤
        r.bankTransaction.amount * AmountTolerancePercent) := by
  with_unfolding_all decide

end Reconciliation
